import Mathlib

/-!
Verification of the command interpreter of `src/command.rs` (the command
execution core of a canister scripting tool).

The interpreter is shallowly embedded: the `Command` variant set, the
mutable session state `MyHelper`, the binding policy `bind_value`, the
assertion protocol, the identity resolver and the script loader are
translated from the source.  External collaborators (the expression
evaluator, the typed-value annotation machinery, the file system, the
parser, the identity providers, environment variables) are abstracted
into a record `Externals` of functions, matching the interfaces the source
consumes them at.  Since the Rust code mutates the helper in place
through `&mut` and errors propagate with `?` while leaving mutations in
place, execution returns `MyHelper × Option Err`: the final state paired
with `none` on success or `some e` on failure.  Recursion through loaded
scripts and `while` loops is made total with a fuel parameter; running
out of fuel is its own distinguished outcome `Err.fuel`.
-/

/-- Opaque source expressions: the expression sub-language is external
(evaluated by `Externals.eval`), so expressions are represented by a code. -/
structure Exp where
  code : Nat
deriving DecidableEq, Repr

/-- Typed values (candid `IDLValue`), restricted to the constructors the
interpreter inspects (`Text`, `Bool`, `Principal`, `Int64`) plus a few
generic carriers so that heterogeneously-typed counterexamples exist.
Structural equality is the derived one, as in the source's `PartialEq`. -/
inductive IDLValue where
  | Text : String → IDLValue
  | Bool : Bool → IDLValue
  | Principal : Nat → IDLValue
  | Int64 : Int → IDLValue
  | NatV : Nat → IDLValue
  | IntV : Int → IDLValue
  | Null : IDLValue
deriving DecidableEq, Repr

/-- Candid types are external; they are only produced by `value_ty` and
consumed by `annotate_type`, so an opaque code suffices. -/
abbrev IDLTy : Type := Nat

/-- `IdentityConfig` from the source. -/
inductive IdentityConfig where
  | Empty : IdentityConfig
  | Pem : String → IdentityConfig
  | Hsm : Nat → String → IdentityConfig
deriving DecidableEq, Repr

/-- `BinOp` from the source. -/
inductive BinOp where
  | Equal | SubEqual | NotEqual
deriving DecidableEq, Repr

/-- `Command` from the source.  `Import` carries the principal as a
numeric code; `Func`, `While` and `If` carry their bodies inline. -/
inductive Command where
  | Config : String → Command
  | Show : Exp → Command
  | Let : String → Exp → Command
  | Assert : BinOp → Exp → Exp → Command
  | Import : String → Nat → Option String → Command
  | Load : Exp → Command
  | Identity : String → IdentityConfig → Command
  | Func : String → List String → List Command → Command
  | While : Exp → List Command → Command
  | If : Exp → List Command → List Command → Command

/-- Identity handles (`Arc<dyn Identity>`): opaque shared handles.
Cloning an `Arc` yields the same handle, so handle equality models
pointer-sharing of the underlying signer. -/
abbrev IdentityHandle : Type := Nat

/-- Canister interface metadata, opaque. -/
abbrev CanisterInfo : Type := Nat

/-- Parsed configuration object, opaque. -/
abbrev Configs : Type := Nat

/-- Errors.  `anyhow` errors are carried as their message string; panics
of `assert_eq!`/`assert_ne!` become `assertFail`; `fuel` marks fuel
exhaustion of the embedding (not a behaviour of the source). -/
inductive Err where
  | fuel : Err
  | assertFail : Err
  | msg : String → Err
deriving DecidableEq, Repr

/-- Insert-or-overwrite into an association list, keeping all other
entries in place: the model of `HashMap::insert` / `BTreeMap::insert`. -/
def insertKV {κ β : Type} [DecidableEq κ] (k : κ) (v : β) :
    List (κ × β) → List (κ × β)
  | [] => [(k, v)]
  | (k', v') :: t => if k = k' then (k, v) :: t else (k', v') :: insertKV k v t

/-- Lookup in an association list: the model of map lookup. -/
def lookupKV {κ β : Type} [DecidableEq κ] (k : κ) :
    List (κ × β) → Option β
  | [] => none
  | (k', v) :: t => if k = k' then some v else lookupKV k t

/-- The mutable session state `MyHelper`, restricted to the fields the
interpreter touches.  `output` records the lines printed to stdout. -/
structure MyHelper where
  env : List (String × IDLValue)
  func_env : List (String × (List String × List Command))
  identity_map : List (String × IdentityHandle)
  canister_map : List (Nat × CanisterInfo)
  base_path : String
  config : Configs
  verbose : Bool
  current_identity : String
  agent_identity : IdentityHandle
  output : List String

/-- The external collaborators, at the interfaces the source consumes
them (spec §6): expression evaluation mutates the helper and may fail;
annotation (`annotate_type`) may fail; the file system, parser, macro
expander and identity constructors may fail.  `parse` returns each
parsed command with its source slice (the text echoed in verbose mode).
`freshIdentity` models `BasicIdentity::from_signing_key(SigningKey::new(rng))`
as a function of the current state. -/
structure Externals where
  eval : Exp → MyHelper → MyHelper × Except Err IDLValue
  is_call : Exp → Bool
  value_ty : IDLValue → IDLTy
  annotate_type : IDLValue → IDLTy → Option IDLValue
  resolve_path : String → String → String
  parent : String → String
  read_to_string : String → Except Err String
  shellexpand : String → Except Err String
  pretty_parse : String → String → Except Err (List (Command × String))
  parse_configs : String → Except Err Configs
  did_to_canister_info : String → String → Except Err CanisterInfo
  env_var : String → Option String
  pkcs11_libpath : String
  hardware_identity : String → Nat → String → Except Err IdentityHandle
  secp256k1_from_pem_file : String → Except Err IdentityHandle
  basic_from_pem_file : String → Except Err IdentityHandle
  freshIdentity : MyHelper → IdentityHandle
  sender : IdentityHandle → Except Err Nat
  may_extract_profiling : IDLValue → IDLValue × Option Int
  show_value : IDLValue → String
  duration_line : String

/-- Substring test on character lists: `hay.contains(needle)` of Rust
`str::contains` with a string pattern. -/
def containsSub (hay needle : List Char) : Bool :=
  if needle.isPrefixOf hay then true
  else
    match hay with
    | [] => false
    | _ :: t => containsSub t needle

/-- `file.ends_with('?')`. -/
def endsWithQ (s : String) : Bool :=
  match s.data.getLast? with
  | some c => c = '?'
  | none => false

/-- `file.trim_end_matches('?')`: strip every trailing `'?'`. -/
def trimEndQ (s : String) : String :=
  ⟨(s.data.reverse.dropWhile (fun c => c = '?')).reverse⟩

/-- `conf.ends_with(".toml")`. -/
def endsWithToml (s : String) : Bool :=
  List.isSuffixOf ".toml".data s.data

/-- The shebang handling of the script loader:
`if script.starts_with("#!") { let line_end = script.find('\n').unwrap_or(0);
script.drain(..line_end); }`.  `String::find` yields the index of the
first newline (`none` defaulting to `0`), and `drain(..line_end)`
removes exactly the characters before it. -/
def stripShebang (s : String) : String :=
  if s.data.take 2 = ['#', '!'] then
    ⟨s.data.drop ((s.data.findIdx? (fun c => c = '\n')).getD 0)⟩
  else s

/-- `bind_value` from the source: optional display (full representation
when verbose, raw text when the value is textual), optional extraction
of an attached profiling cost bound under `"__cost_" ++ id`, then the
binding of `id` itself (overwrite). -/
def bind_value (ext : Externals) (helper : MyHelper) (id : String) (v : IDLValue)
    (is_call display : Bool) : MyHelper :=
  let helper :=
    if display then
      if helper.verbose then
        { helper with output := helper.output ++ [ext.show_value v] }
      else
        match v with
        | .Text t => { helper with output := helper.output ++ [t] }
        | _ => helper
    else helper
  if is_call then
    let (v, cost) := ext.may_extract_profiling v
    match cost with
    | some c =>
        let helper :=
          { helper with env := insertKV ("__cost_" ++ id) (.Int64 c) helper.env }
        { helper with env := insertKV id v helper.env }
    | none => { helper with env := insertKV id v helper.env }
  else { helper with env := insertKV id v helper.env }

/-- The `SubEqual` decision of the assertion protocol, read off the
source: both-textual substring test first, then re-annotation of the
left value at the right value's type, then the symmetric attempt, then
raw structural equality. -/
def subEqualHolds (ext : Externals) (left right : IDLValue) : Bool :=
  match left, right with
  | .Text l, .Text r => containsSub l.data r.data
  | left, right =>
    let l_ty := ext.value_ty left
    let r_ty := ext.value_ty right
    match ext.annotate_type left r_ty with
    | some left' => left' = right
    | none =>
      match ext.annotate_type right l_ty with
      | some right' => left = right'
      | none => left = right

/-- The identity resolution of the `Identity` arm: the three-way match
on `IdentityConfig` producing the signer handle, before any state is
mutated.  `Hsm` reads the `PKCS11_LIBPATH` environment variable with a
platform default; `Pem` tries the secp256k1 format and falls back to the
basic format; `Empty` reuses the cached handle for `id` or synthesizes a
fresh signer. -/
def resolveIdentityConfig (ext : Externals) (helper : MyHelper) (id : String) :
    IdentityConfig → Except Err IdentityHandle
  | .Hsm slot_index key_id =>
      let lib_path := (ext.env_var "PKCS11_LIBPATH").getD ext.pkcs11_libpath
      ext.hardware_identity lib_path slot_index key_id
  | .Pem pem_path =>
      let path := ext.resolve_path helper.base_path pem_path
      match ext.secp256k1_from_pem_file path with
      | .ok identity => .ok identity
      | .error _ => ext.basic_from_pem_file path
  | .Empty =>
      match lookupKV id helper.identity_map with
      | some identity => .ok identity
      | none => .ok (ext.freshIdentity helper)

/-- The bundle of the four mutually recursive execution functions at a
given fuel level: `cmd` is `Command::run`, `cmds` the sequential
execution of a command list (`for cmd in list { cmd.run(helper)?; }`),
`loadCmds` the loader's loop over parsed commands (echoing each source
slice when verbose), and `load` the script loader after fail-safe
detection. -/
structure Interp where
  cmd : Command → MyHelper → MyHelper × Option Err
  cmds : List Command → MyHelper → MyHelper × Option Err
  loadCmds : List (Command × String) → MyHelper → MyHelper × Option Err
  load : String → Bool → MyHelper → MyHelper × Option Err

/-- The fuel-exhausted interpreter. -/
def interpZero : Interp where
  cmd := fun _ helper => (helper, some .fuel)
  cmds := fun _ helper => (helper, some .fuel)
  loadCmds := fun _ helper => (helper, some .fuel)
  load := fun _ _ helper => (helper, some .fuel)

/-- One fuel level of the interpreter, with `prev` the interpreter used
for every recursive call (loaded scripts, control-flow bodies, loop
re-entry).  Each arm is translated from the corresponding arm of
`Command::run` in the source. -/
def interpStep (ext : Externals) (prev : Interp) : Interp where
  cmd := fun c helper =>
    match c with
    | .Import id canister_id did =>
        match did with
        | some d =>
            let path := ext.resolve_path helper.base_path d
            match ext.did_to_canister_info d path with
            | .error e => (helper, some e)
            | .ok info =>
                let helper :=
                  { helper with canister_map := insertKV canister_id info helper.canister_map }
                ({ helper with env := insertKV id (.Principal canister_id) helper.env }, none)
        | none =>
            ({ helper with env := insertKV id (.Principal canister_id) helper.env }, none)
    | .Let id val =>
        let is_call := ext.is_call val
        match ext.eval val helper with
        | (helper, .error e) => (helper, some e)
        | (helper, .ok v) => (bind_value ext helper id v is_call false, none)
    | .Func name args body =>
        ({ helper with func_env := insertKV name (args, body) helper.func_env }, none)
    | .Assert op left right =>
        match ext.eval left helper with
        | (helper, .error e) => (helper, some e)
        | (helper, .ok l) =>
          match ext.eval right helper with
          | (helper, .error e) => (helper, some e)
          | (helper, .ok r) =>
            match op with
            | .Equal => if l = r then (helper, none) else (helper, some .assertFail)
            | .SubEqual =>
                if subEqualHolds ext l r then (helper, none) else (helper, some .assertFail)
            | .NotEqual => if l ≠ r then (helper, none) else (helper, some .assertFail)
    | .Config conf =>
        if endsWithToml conf then
          let path := ext.resolve_path helper.base_path conf
          match ext.read_to_string path with
          | .error e => (helper, some e)
          | .ok conf =>
            match ext.parse_configs conf with
            | .error e => (helper, some e)
            | .ok cfg => ({ helper with config := cfg }, none)
        else
          match ext.parse_configs conf with
          | .error e => (helper, some e)
          | .ok cfg => ({ helper with config := cfg }, none)
    | .Show val =>
        let is_call := ext.is_call val
        match ext.eval val helper with
        | (helper, .error e) => (helper, some e)
        | (helper, .ok v) =>
          let helper := bind_value ext helper "_" v is_call true
          if helper.verbose then
            ({ helper with output := helper.output ++ [ext.duration_line] }, none)
          else (helper, none)
    | .Identity id config =>
        match resolveIdentityConfig ext helper id config with
        | .error e => (helper, some e)
        | .ok identity =>
          let helper :=
            { helper with identity_map := insertKV id identity helper.identity_map }
          match ext.sender identity with
          | .error e => (helper, some e)
          | .ok sender =>
            let helper :=
              { helper with output := helper.output ++ ["Current identity " ++ toString sender] }
            let helper := { helper with agent_identity := identity }
            let helper := { helper with current_identity := id }
            ({ helper with env := insertKV id (.Principal sender) helper.env }, none)
    | .Load e =>
        match ext.eval e helper with
        | (helper, .ok (.Text file)) =>
            let fs := endsWithQ file
            let file := if fs then trimEndQ file else file
            prev.load file fs helper
        | (helper, .ok _) => (helper, some (.msg "load needs to be a file path"))
        | (helper, .error e) => (helper, some e)
    | .If cond then_ else_ =>
        match ext.eval cond helper with
        | (helper, .error e) => (helper, some e)
        | (helper, .ok (.Bool b)) =>
            if b then prev.cmds then_ helper
            else prev.cmds else_ helper
        | (helper, .ok _) => (helper, some (.msg "if condition is not a boolean expression"))
    | .While cond body =>
        match ext.eval cond helper with
        | (helper, .error e) => (helper, some e)
        | (helper, .ok (.Bool b)) =>
            if b then
              match prev.cmds body helper with
              | (helper, some e) => (helper, some e)
              | (helper, none) => prev.cmd (.While cond body) helper
            else (helper, none)
        | (helper, .ok _) => (helper, some (.msg "while condition is not a boolean expression"))
  cmds := fun cs helper =>
    match cs with
    | [] => (helper, none)
    | c :: cs =>
      match prev.cmd c helper with
      | (helper, some e) => (helper, some e)
      | (helper, none) => prev.cmds cs helper
  loadCmds := fun cs helper =>
    match cs with
    | [] => (helper, none)
    | (c, slice) :: rest =>
      let helper :=
        if helper.verbose then { helper with output := helper.output ++ ["> " ++ slice] }
        else helper
      match prev.cmd c helper with
      | (helper, some e) => (helper, some e)
      | (helper, none) => prev.loadCmds rest helper
  load := fun file fail_safe helper =>
    let old_base := helper.base_path
    let path := ext.resolve_path old_base file
    match ext.read_to_string path with
    | .error _ =>
        if fail_safe then (helper, none)
        else (helper, some (.msg ("Cannot read " ++ path)))
    | .ok script =>
        let script := stripShebang script
        match ext.shellexpand script with
        | .error e => (helper, some e)
        | .ok script =>
          match ext.pretty_parse file script with
          | .error e => (helper, some e)
          | .ok cmds =>
            let helper := { helper with base_path := ext.parent path }
            match prev.loadCmds cmds helper with
            | (helper, some e) => (helper, some e)
            | (helper, none) => ({ helper with base_path := old_base }, none)

/-- The interpreter at a given fuel level. -/
def interp (ext : Externals) : Nat → Interp
  | 0 => interpZero
  | fuel + 1 => interpStep ext (interp ext fuel)

/-- `Command::run`: one command against the session state, at a fuel level. -/
def runCmd (ext : Externals) (fuel : Nat) : Command → MyHelper → MyHelper × Option Err :=
  (interp ext fuel).cmd

/-- Sequential execution of a command list: the first failure aborts the
remainder, keeping the state reached. -/
def runCmds (ext : Externals) (fuel : Nat) : List Command → MyHelper → MyHelper × Option Err :=
  (interp ext fuel).cmds

/-- The loop of the script loader over parsed commands. -/
def runLoadCmds (ext : Externals) (fuel : Nat) :
    List (Command × String) → MyHelper → MyHelper × Option Err :=
  (interp ext fuel).loadCmds

/-- The script loader after fail-safe detection: resolve the path, read
(fail-safe read failures are a no-op success, other read failures report
the failing path), strip a shebang line, macro-expand, parse, swap the
working directory to the file's parent, run the loaded commands, and —
only when they all succeeded — restore the saved working directory. -/
def loadFile (ext : Externals) (fuel : Nat) :
    String → Bool → MyHelper → MyHelper × Option Err :=
  (interp ext fuel).load


/-- Whether a value is textual (`IDLValue::Text`). -/
def isTextV : IDLValue → Bool
  | .Text _ => true
  | _ => false

/-- Whether both values are textual: the guard of the source's
`if let (IDLValue::Text(left), IDLValue::Text(right)) = (&left, &right)`. -/
def isTextPair (l r : IDLValue) : Bool :=
  match l, r with
  | .Text _, .Text _ => true
  | _, _ => false

/-! ## A concrete instantiation of the external collaborators

Used to exercise the interpreter on closed inputs: expression codes `0`–`9`
evaluate to fixed values (code `4` fails), the file system knows the two
files `/d/s.sh` and `/d/sb.sh`, parsing `"SCRIPT"` yields a single `Let`
command whose expression fails to evaluate, and the identity handle `666`
is the one whose principal derivation fails. -/
def extW : Externals where
  eval := fun e helper =>
    (helper,
      match e.code with
      | 0 => .ok (.Text "a.txt??")
      | 1 => .ok (.Bool true)
      | 2 => .ok (.Bool false)
      | 3 => .ok (.NatV 5)
      | 4 => .error (.msg "boom")
      | 5 => .ok (.Text "s.sh")
      | 6 => .ok (.Text "missing.txt?")
      | 7 => .ok (.Text "missing.txt")
      | 8 => .ok (.Text "abc")
      | 9 => .ok (.IntV 5)
      | 10 => .ok (.Text "sb.sh")
      | _ => .ok .Null)
  is_call := fun _ => false
  value_ty := fun v =>
    match v with
    | .Text _ => 0
    | .Bool _ => 1
    | .Principal _ => 2
    | .Int64 _ => 3
    | .NatV _ => 4
    | .IntV _ => 5
    | .Null => 6
  annotate_type := fun v ty =>
    match v, ty with
    | .NatV n, 5 => some (.IntV n)
    | _, _ => none
  resolve_path := fun base file => base ++ "/" ++ file
  parent := fun p => "dir(" ++ p ++ ")"
  read_to_string := fun p =>
    if p = "/d/s.sh" then .ok "SCRIPT"
    else if p = "/d/sb.sh" then .ok "#!she"
    else .error (.msg "io")
  shellexpand := fun s => .ok s
  pretty_parse := fun _ s =>
    if s = "SCRIPT" then .ok [(.Let "x" ⟨4⟩, "let x = boom")] else .ok []
  parse_configs := fun _ => .ok 1
  did_to_canister_info := fun _ _ => .ok 7
  env_var := fun _ => none
  pkcs11_libpath := "/usr/lib/x86_64-linux-gnu/opensc-pkcs11.so"
  hardware_identity := fun _ _ _ => .error (.msg "hsm")
  secp256k1_from_pem_file := fun _ => .error (.msg "secp")
  basic_from_pem_file := fun _ => .error (.msg "pem")
  freshIdentity := fun helper => helper.identity_map.length + 100
  sender := fun i => if i = 666 then .error (.msg "sender fail") else .ok (i + 1)
  may_extract_profiling := fun v => (v, none)
  show_value := fun _ => "reprV"
  duration_line := "(dur)"

/-- A concrete initial session state. -/
def h0 : MyHelper where
  env := []
  func_env := []
  identity_map := []
  canister_map := []
  base_path := "/d"
  config := 0
  verbose := false
  current_identity := ""
  agent_identity := 0
  output := []

/-! ## Basic lemmas about the map model -/

theorem lookupKV_insertKV_self {κ β : Type} [DecidableEq κ] (k : κ) (v : β)
    (l : List (κ × β)) : lookupKV k (insertKV k v l) = some v := by
  induction l with
  | nil => simp [insertKV, lookupKV]
  | cons p t ih =>
    obtain ⟨k', v'⟩ := p
    by_cases h : k = k' <;> simp [insertKV, lookupKV, h, ih]

theorem lookupKV_insertKV_ne {κ β : Type} [DecidableEq κ] {m k : κ} (v : β)
    (l : List (κ × β)) (hne : m ≠ k) :
    lookupKV m (insertKV k v l) = lookupKV m l := by
  induction l with
  | nil => simp [insertKV, lookupKV, hne]
  | cons p t ih =>
    obtain ⟨k', v'⟩ := p
    by_cases h : k = k'
    · subst h
      simp [insertKV, lookupKV, hne]
    · by_cases h2 : m = k' <;> simp [insertKV, lookupKV, h, h2, ih]

/-! ## The substring test -/

theorem containsSub_iff_infix (hay needle : List Char) :
    containsSub hay needle = true ↔ needle <:+: hay := by
  induction hay with
  | nil =>
    rw [containsSub]
    constructor
    · intro h
      split at h
      · next hp => exact (List.isPrefixOf_iff_prefix.mp hp).isInfix
      · simp at h
    · intro h
      have : needle = [] := List.eq_nil_of_infix_nil h
      simp [this, List.isPrefixOf_iff_prefix]
  | cons a t ih =>
    rw [containsSub]
    constructor
    · intro h
      split at h
      · next hp => exact (List.isPrefixOf_iff_prefix.mp hp).isInfix
      · exact List.infix_cons (ih.mp h)
    · intro h
      rcases List.infix_cons_iff.mp h with hpre | hinf
      · simp [List.isPrefixOf_iff_prefix.mpr hpre]
      · split
        · rfl
        · exact ih.mpr hinf

/-! ## Trailing question marks -/

theorem head?_dropWhile_not (p : Char → Bool) (l : List Char) :
    ∀ c, (l.dropWhile p).head? = some c → p c = false := by
  induction l with
  | nil => simp [List.dropWhile]
  | cons a t ih =>
    intro c h
    rw [List.dropWhile_cons] at h
    split at h
    · exact ih c h
    · next hpa =>
      simp at h
      subst h
      simpa using hpa

theorem endsWithQ_trimEndQ (s : String) : endsWithQ (trimEndQ s) = false := by
  unfold endsWithQ trimEndQ
  rw [List.getLast?_reverse]
  cases hh : (s.data.reverse.dropWhile (fun c => c = '?')).head? with
  | none => rfl
  | some c =>
    have := head?_dropWhile_not (fun c => c = '?') s.data.reverse c hh
    simpa using this


/-! ## Unfolding equations of the interpreter -/

/-- With no fuel, every command reports fuel exhaustion. -/
theorem runCmd_zero (ext : Externals) (c : Command) (h : MyHelper) :
    runCmd ext 0 c h = (h, some .fuel) := rfl

/-- Unfolding of the `Load` arm: evaluate the target, require a textual
value, detect and strip the fail-safe marker, and enter the loader. -/
theorem runCmd_Load_eq (ext : Externals) (fuel : Nat) (e : Exp) (h : MyHelper) :
    runCmd ext (fuel + 1) (.Load e) h =
      (match ext.eval e h with
      | (h1, .ok (.Text file)) =>
          loadFile ext fuel (if endsWithQ file then trimEndQ file else file)
            (endsWithQ file) h1
      | (h1, .ok _) => (h1, some (.msg "load needs to be a file path"))
      | (h1, .error er) => (h1, some er)) := rfl

/-- Unfolding of the script loader body. -/
theorem loadFile_eq (ext : Externals) (fuel : Nat) (file : String)
    (fs : Bool) (h : MyHelper) :
    loadFile ext (fuel + 1) file fs h =
      (match ext.read_to_string (ext.resolve_path h.base_path file) with
      | .error _ =>
          if fs then (h, none)
          else (h, some (.msg ("Cannot read " ++ ext.resolve_path h.base_path file)))
      | .ok script =>
          match ext.shellexpand (stripShebang script) with
          | .error er => (h, some er)
          | .ok script2 =>
            match ext.pretty_parse file script2 with
            | .error er => (h, some er)
            | .ok cmds =>
              match runLoadCmds ext fuel cmds
                  { h with base_path := ext.parent (ext.resolve_path h.base_path file) } with
              | (h2, some er) => (h2, some er)
              | (h2, none) => ({ h2 with base_path := h.base_path }, none)) := rfl

/-- Unfolding of sequential command-list execution. -/
theorem runCmds_cons_eq (ext : Externals) (fuel : Nat) (c : Command)
    (cs : List Command) (h : MyHelper) :
    runCmds ext (fuel + 1) (c :: cs) h =
      (match runCmd ext fuel c h with
      | (h2, some er) => (h2, some er)
      | (h2, none) => runCmds ext fuel cs h2) := rfl

/-- The empty command list succeeds without touching the state. -/
theorem runCmds_nil_eq (ext : Externals) (fuel : Nat) (h : MyHelper) :
    runCmds ext (fuel + 1) [] h = (h, none) := rfl

/-- Unfolding of the `If` arm. -/
theorem runCmd_If_eq (ext : Externals) (fuel : Nat) (cond : Exp)
    (then_ else_ : List Command) (h : MyHelper) :
    runCmd ext (fuel + 1) (.If cond then_ else_) h =
      (match ext.eval cond h with
      | (h1, .error er) => (h1, some er)
      | (h1, .ok (.Bool b)) =>
          if b then runCmds ext fuel then_ h1 else runCmds ext fuel else_ h1
      | (h1, .ok _) => (h1, some (.msg "if condition is not a boolean expression"))) := rfl

/-- Unfolding of the `While` arm. -/
theorem runCmd_While_eq (ext : Externals) (fuel : Nat) (cond : Exp)
    (body : List Command) (h : MyHelper) :
    runCmd ext (fuel + 1) (.While cond body) h =
      (match ext.eval cond h with
      | (h1, .error er) => (h1, some er)
      | (h1, .ok (.Bool b)) =>
          if b then
            match runCmds ext fuel body h1 with
            | (h2, some er) => (h2, some er)
            | (h2, none) => runCmd ext fuel (.While cond body) h2
          else (h1, none)
      | (h1, .ok _) => (h1, some (.msg "while condition is not a boolean expression"))) := rfl

/-- Unfolding of the `Assert` arm. -/
theorem runCmd_Assert_eq (ext : Externals) (fuel : Nat) (op : BinOp)
    (left right : Exp) (h : MyHelper) :
    runCmd ext (fuel + 1) (.Assert op left right) h =
      (match ext.eval left h with
      | (h1, .error er) => (h1, some er)
      | (h1, .ok l) =>
        match ext.eval right h1 with
        | (h2, .error er) => (h2, some er)
        | (h2, .ok r) =>
          match op with
          | .Equal => if l = r then (h2, none) else (h2, some .assertFail)
          | .SubEqual =>
              if subEqualHolds ext l r then (h2, none) else (h2, some .assertFail)
          | .NotEqual => if l ≠ r then (h2, none) else (h2, some .assertFail)) := rfl

/-- Unfolding of the `Show` arm. -/
theorem runCmd_Show_eq (ext : Externals) (fuel : Nat) (val : Exp) (h : MyHelper) :
    runCmd ext (fuel + 1) (.Show val) h =
      (match ext.eval val h with
      | (h1, .error er) => (h1, some er)
      | (h1, .ok v) =>
          let h2 := bind_value ext h1 "_" v (ext.is_call val) true
          if h2.verbose then
            ({ h2 with output := h2.output ++ [ext.duration_line] }, none)
          else (h2, none)) := rfl

/-- Unfolding of the `Identity` arm. -/
theorem runCmd_Identity_eq (ext : Externals) (fuel : Nat) (id : String)
    (config : IdentityConfig) (h : MyHelper) :
    runCmd ext (fuel + 1) (.Identity id config) h =
      (match resolveIdentityConfig ext h id config with
      | .error er => (h, some er)
      | .ok identity =>
        match ext.sender identity with
        | .error er =>
            ({ h with identity_map := insertKV id identity h.identity_map }, some er)
        | .ok sender =>
            ({ h with
                identity_map := insertKV id identity h.identity_map
                output := h.output ++ ["Current identity " ++ toString sender]
                agent_identity := identity
                current_identity := id
                env := insertKV id (.Principal sender) h.env }, none)) := rfl

/-! ## C1: working-directory restoration around Load -/

/-- C1 (counterexample): the claim that after a `Load` whose target file
is read and parsed successfully the working directory is restored
**regardless of whether the loaded commands succeeded or failed** is
false.  Concretely: loading `s.sh` (read and parsed successfully into a
single `Let` command whose expression fails to evaluate) fails with that
command's error, and afterwards `base_path` is the loaded file's parent
directory `dir(/d/s.sh)`, not the prior value `/d` — the restore on line
195 of the source is skipped by the `?` early return on line 193. -/
theorem load_base_path_restore_cex :
    extW.eval ⟨5⟩ h0 = (h0, .ok (.Text "s.sh"))
    ∧ extW.read_to_string (extW.resolve_path h0.base_path "s.sh") = .ok "SCRIPT"
    ∧ extW.pretty_parse "s.sh" "SCRIPT" = .ok [(.Let "x" ⟨4⟩, "let x = boom")]
    ∧ (runCmd extW 5 (.Load ⟨5⟩) h0).2 = some (.msg "boom")
    ∧ (runCmd extW 5 (.Load ⟨5⟩) h0).1.base_path = "dir(/d/s.sh)"
    ∧ h0.base_path = "/d"
    ∧ (runCmd extW 5 (.Load ⟨5⟩) h0).1.base_path ≠ h0.base_path := by
  refine ⟨rfl, rfl, rfl, rfl, rfl, rfl, ?_⟩
  decide

/-- C1 (amended): for a `Load` whose target file is read and parsed
successfully, the working directory is set to the loaded file's parent
for the execution of the loaded commands; it is restored to its previous
value only when all loaded commands succeed.  When a loaded command
fails, the command returns that failure with `base_path` left exactly as
the loaded commands' execution left it (initially the loaded file's
parent directory) — no restoration happens on the failure path. -/
theorem load_base_path_restore_amended (ext : Externals) (fuel : Nat) (e : Exp)
    (h h1 h2 : MyHelper) (file script script2 : String)
    (cmds : List (Command × String)) (r : Option Err)
    (hev : ext.eval e h = (h1, .ok (.Text file)))
    (hq : endsWithQ file = false)
    (hread : ext.read_to_string (ext.resolve_path h1.base_path file) = .ok script)
    (hex : ext.shellexpand (stripShebang script) = .ok script2)
    (hparse : ext.pretty_parse file script2 = .ok cmds)
    (hrun : runLoadCmds ext fuel cmds
        { h1 with base_path := ext.parent (ext.resolve_path h1.base_path file) } = (h2, r)) :
    runCmd ext (fuel + 1 + 1) (.Load e) h =
      (match r with
       | none => ({ h2 with base_path := h1.base_path }, none)
       | some er => (h2, some er)) := by
  simp only [runCmd_Load_eq, hev, hq, Bool.false_eq_true, if_false, loadFile_eq,
    hread, hex, hparse, hrun]
  cases r <;> rfl

/-- C1 (witness): the amended theorem applied to the concrete failing
load of `load_base_path_restore_cex`. -/
theorem load_base_path_restore_amended_witness :
    runCmd extW 5 (.Load ⟨5⟩) h0 =
      ({ h0 with base_path := "dir(/d/s.sh)" }, some (.msg "boom")) :=
  load_base_path_restore_amended extW 3 ⟨5⟩ h0 h0
    { h0 with base_path := "dir(/d/s.sh)" } "s.sh" "SCRIPT" "SCRIPT"
    [(.Let "x" ⟨4⟩, "let x = boom")] (some (.msg "boom"))
    rfl rfl rfl rfl rfl rfl

/-! ## C4: fail-safe versus fatal read failures in Load -/

/-- C4: for a `Load` whose evaluated target text is marked fail-safe
(trailing `?`), a failure to read the resolved file makes the command
return success with the state exactly as it was after target evaluation
(nothing further executes, nothing changes); without the fail-safe mark,
a read failure is a fatal error whose message reports the failing
resolved path. -/
theorem load_read_failure_behavior (ext : Externals) (fuel : Nat) (e : Exp)
    (h h1 : MyHelper) (file : String)
    (hev : ext.eval e h = (h1, .ok (.Text file))) :
    (endsWithQ file = true →
      ∀ er, ext.read_to_string (ext.resolve_path h1.base_path (trimEndQ file)) = .error er →
      runCmd ext (fuel + 1 + 1) (.Load e) h = (h1, none))
    ∧ (endsWithQ file = false →
      ∀ er, ext.read_to_string (ext.resolve_path h1.base_path file) = .error er →
      runCmd ext (fuel + 1 + 1) (.Load e) h =
        (h1, some (.msg ("Cannot read " ++ ext.resolve_path h1.base_path file)))) := by
  constructor
  · intro hq er hread
    simp only [runCmd_Load_eq, hev, hq, if_true, loadFile_eq, hread]
  · intro hq er hread
    simp only [runCmd_Load_eq, hev, hq, Bool.false_eq_true, if_false, loadFile_eq, hread]

/-- C4 (witness): `Load("missing.txt?")` with an unreadable file is a
no-op success, and `Load("missing.txt")` with an unreadable file fails
reporting the resolved path. -/
theorem load_read_failure_behavior_witness :
    runCmd extW 3 (.Load ⟨6⟩) h0 = (h0, none)
    ∧ runCmd extW 3 (.Load ⟨7⟩) h0 = (h0, some (.msg "Cannot read /d/missing.txt")) :=
  ⟨(load_read_failure_behavior extW 1 ⟨6⟩ h0 h0 "missing.txt?" rfl).1 rfl
      (.msg "io") rfl,
    (load_read_failure_behavior extW 1 ⟨7⟩ h0 h0 "missing.txt" rfl).2 rfl
      (.msg "io") rfl⟩

/-! ## C10: all trailing question marks are stripped -/

/-- C10: for a `Load` whose evaluated target text ends in `?`, the
loader is entered in fail-safe mode on the target with **all** trailing
`?` characters stripped (`trim_end_matches`), so the stripped target
never ends in `?`; in particular target `"a.txt??"` resolves the file
name `"a.txt"`. -/
theorem load_trailing_question_marks (ext : Externals) (fuel : Nat) (e : Exp)
    (h h1 : MyHelper) (file : String)
    (hev : ext.eval e h = (h1, .ok (.Text file)))
    (hq : endsWithQ file = true) :
    runCmd ext (fuel + 1) (.Load e) h = loadFile ext fuel (trimEndQ file) true h1
    ∧ endsWithQ (trimEndQ file) = false
    ∧ trimEndQ "a.txt??" = "a.txt" := by
  refine ⟨?_, endsWithQ_trimEndQ file, by decide⟩
  simp only [runCmd_Load_eq, hev, hq, if_true]

/-- C10 (witness): the theorem applied to the target `"a.txt??"`. -/
theorem load_trailing_question_marks_witness :
    runCmd extW 2 (.Load ⟨0⟩) h0 = loadFile extW 1 "a.txt" true h0
    ∧ endsWithQ "a.txt" = false :=
  ⟨(load_trailing_question_marks extW 1 ⟨0⟩ h0 h0 "a.txt??" rfl rfl).1,
    (load_trailing_question_marks extW 1 ⟨0⟩ h0 h0 "a.txt??" rfl rfl).2.1⟩

/-! ## C6: If command semantics -/

/-- C6: `If(cond, then, else)` evaluates `cond` once; a non-boolean
result is a type error executing neither branch; `true` executes exactly
the then-list and `false` exactly the else-list, sequentially; and in
sequential execution the first failing command aborts the rest,
propagating its error. -/
theorem if_command_semantics (ext : Externals) (cond : Exp)
    (then_ else_ : List Command) :
    (∀ fuel h h1 v, ext.eval cond h = (h1, .ok v) → (∀ b, v ≠ .Bool b) →
      runCmd ext (fuel + 1) (.If cond then_ else_) h =
        (h1, some (.msg "if condition is not a boolean expression")))
    ∧ (∀ fuel h h1, ext.eval cond h = (h1, .ok (.Bool true)) →
      runCmd ext (fuel + 1) (.If cond then_ else_) h = runCmds ext fuel then_ h1)
    ∧ (∀ fuel h h1, ext.eval cond h = (h1, .ok (.Bool false)) →
      runCmd ext (fuel + 1) (.If cond then_ else_) h = runCmds ext fuel else_ h1)
    ∧ (∀ fuel c cs h h2 er, runCmd ext fuel c h = (h2, some er) →
      runCmds ext (fuel + 1) (c :: cs) h = (h2, some er))
    ∧ (∀ fuel c cs h h2, runCmd ext fuel c h = (h2, none) →
      runCmds ext (fuel + 1) (c :: cs) h = runCmds ext fuel cs h2) := by
  refine ⟨?_, ?_, ?_, ?_, ?_⟩
  · intro fuel h h1 v hev hb
    simp only [runCmd_If_eq, hev]
  · intro fuel h h1 hev
    simp [runCmd_If_eq, hev]
  · intro fuel h h1 hev
    simp [runCmd_If_eq, hev]
  · intro fuel c cs h h2 er hstep
    simp [runCmds_cons_eq, hstep]
  · intro fuel c cs h h2 hstep
    simp [runCmds_cons_eq, hstep]

/-- C6 (witness): a numeric condition is a type error; boolean
conditions select exactly the corresponding branch. -/
theorem if_command_semantics_witness :
    runCmd extW 1 (.If ⟨3⟩ [] []) h0
        = (h0, some (.msg "if condition is not a boolean expression"))
    ∧ runCmd extW 1 (.If ⟨1⟩ [] []) h0 = runCmds extW 0 [] h0
    ∧ runCmd extW 1 (.If ⟨2⟩ [] []) h0 = runCmds extW 0 [] h0 :=
  ⟨(if_command_semantics extW ⟨3⟩ [] []).1 0 h0 h0 (.NatV 5) rfl
      (fun _ hb => nomatch hb),
    (if_command_semantics extW ⟨1⟩ [] []).2.1 0 h0 h0 rfl,
    (if_command_semantics extW ⟨2⟩ [] []).2.2.1 0 h0 h0 rfl⟩

/-! ## C5: While command semantics -/

/-- C5: `While(cond, body)` re-evaluates `cond` before every iteration
(including the first); a non-boolean evaluation is a type error raised
before the body runs for that iteration; per iteration the body runs
sequentially (a failure aborts the loop with that error, success
re-enters the loop); and the loop only ever succeeds by an evaluation of
`cond` to `false` (any successful run ends in a state produced by a
false condition evaluation). -/
theorem while_command_semantics (ext : Externals) (cond : Exp)
    (body : List Command) :
    (∀ fuel h h1 v, ext.eval cond h = (h1, .ok v) → (∀ b, v ≠ .Bool b) →
      runCmd ext (fuel + 1) (.While cond body) h =
        (h1, some (.msg "while condition is not a boolean expression")))
    ∧ (∀ fuel h h1 h2 er, ext.eval cond h = (h1, .ok (.Bool true)) →
        runCmds ext fuel body h1 = (h2, some er) →
        runCmd ext (fuel + 1) (.While cond body) h = (h2, some er))
    ∧ (∀ fuel h h1 h2, ext.eval cond h = (h1, .ok (.Bool true)) →
        runCmds ext fuel body h1 = (h2, none) →
        runCmd ext (fuel + 1) (.While cond body) h
          = runCmd ext fuel (.While cond body) h2)
    ∧ (∀ fuel h h1, ext.eval cond h = (h1, .ok (.Bool false)) →
        runCmd ext (fuel + 1) (.While cond body) h = (h1, none))
    ∧ (∀ fuel h h2, runCmd ext fuel (.While cond body) h = (h2, none) →
        ∃ h', ext.eval cond h' = (h2, .ok (.Bool false))) := by
  refine ⟨?_, ?_, ?_, ?_, ?_⟩
  · intro fuel h h1 v hev hb
    simp only [runCmd_While_eq, hev]
  · intro fuel h h1 h2 er hev hbody
    simp [runCmd_While_eq, hev, hbody]
  · intro fuel h h1 h2 hev hbody
    simp [runCmd_While_eq, hev, hbody]
  · intro fuel h h1 hev
    simp [runCmd_While_eq, hev]
  · intro fuel
    induction fuel with
    | zero =>
      intro h h2 hrun
      rw [runCmd_zero] at hrun
      exact absurd (congrArg Prod.snd hrun) (by simp)
    | succ fuel ih =>
      intro h h2 hrun
      rw [runCmd_While_eq] at hrun
      cases hev : ext.eval cond h with
      | mk h1 r =>
        rw [hev] at hrun
        cases r with
        | error er => exact absurd (congrArg Prod.snd hrun) (by simp)
        | ok v =>
          cases v with
          | Bool b =>
            cases b with
            | true =>
              simp only at hrun
              cases hbody : runCmds ext fuel body h1 with
              | mk h3 r2 =>
                rw [hbody] at hrun
                cases r2 with
                | some er => exact absurd (congrArg Prod.snd hrun) (by simp)
                | none => exact ih h3 h2 hrun
            | false =>
              simp only at hrun
              have h12 : h1 = h2 := congrArg Prod.fst hrun
              exact ⟨h, by rw [hev, h12]⟩
          | Text t => exact absurd (congrArg Prod.snd hrun) (by simp)
          | Principal p => exact absurd (congrArg Prod.snd hrun) (by simp)
          | Int64 i => exact absurd (congrArg Prod.snd hrun) (by simp)
          | NatV n => exact absurd (congrArg Prod.snd hrun) (by simp)
          | IntV i => exact absurd (congrArg Prod.snd hrun) (by simp)
          | Null => exact absurd (congrArg Prod.snd hrun) (by simp)

/-- C5 (witness): a numeric condition fails with the type error without
running the body; a false condition ends the loop; a true condition with
an empty body re-enters the loop. -/
theorem while_command_semantics_witness :
    runCmd extW 1 (.While ⟨3⟩ []) h0
        = (h0, some (.msg "while condition is not a boolean expression"))
    ∧ runCmd extW 1 (.While ⟨2⟩ []) h0 = (h0, none)
    ∧ runCmd extW 2 (.While ⟨1⟩ []) h0 = runCmd extW 1 (.While ⟨1⟩ []) h0 :=
  ⟨(while_command_semantics extW ⟨3⟩ []).1 0 h0 h0 (.NatV 5) rfl
      (fun _ hb => nomatch hb),
    (while_command_semantics extW ⟨2⟩ []).2.2.2.1 0 h0 h0 rfl,
    (while_command_semantics extW ⟨1⟩ []).2.2.1 1 h0 h0 h0 rfl rfl⟩

/-! ## C2: the SubEqual assertion protocol -/

/-- C2: `Assert(SubEqual, left, right)` decides its result in exactly
this order: (1) if both values are textual it passes iff the right text
is a substring of the left text; (2) otherwise, if the left value
re-annotates at the right value's type, the result is structural
equality of the re-annotated left against right; (3) otherwise, if the
right value re-annotates at the left value's type, the result is
structural equality of left against the re-annotated right; (4)
otherwise the result is raw structural equality.  The final conjunct
ties the decision to the `Assert` command: it succeeds exactly when the
decision holds, and panics (`assertFail`) otherwise. -/
theorem assert_subequal_protocol (ext : Externals) :
    (∀ l r : String,
      (subEqualHolds ext (.Text l) (.Text r) = true ↔ r.data <:+: l.data))
    ∧ (∀ left right l', isTextPair left right = false →
        ext.annotate_type left (ext.value_ty right) = some l' →
        subEqualHolds ext left right = decide (l' = right))
    ∧ (∀ left right r', isTextPair left right = false →
        ext.annotate_type left (ext.value_ty right) = none →
        ext.annotate_type right (ext.value_ty left) = some r' →
        subEqualHolds ext left right = decide (left = r'))
    ∧ (∀ left right, isTextPair left right = false →
        ext.annotate_type left (ext.value_ty right) = none →
        ext.annotate_type right (ext.value_ty left) = none →
        subEqualHolds ext left right = decide (left = right))
    ∧ (∀ fuel (le re : Exp) h h1 h2 l r, ext.eval le h = (h1, .ok l) →
        ext.eval re h1 = (h2, .ok r) →
        runCmd ext (fuel + 1) (.Assert .SubEqual le re) h =
          (h2, if subEqualHolds ext l r then none else some .assertFail)) := by
  refine ⟨?_, ?_, ?_, ?_, ?_⟩
  · intro l r
    exact containsSub_iff_infix l.data r.data
  · intro left right l' hpair hann
    cases left <;> cases right <;> simp_all [subEqualHolds, isTextPair]
  · intro left right r' hpair hann1 hann2
    cases left <;> cases right <;> simp_all [subEqualHolds, isTextPair]
  · intro left right hpair hann1 hann2
    cases left <;> cases right <;> simp_all [subEqualHolds, isTextPair]
  · intro fuel le re h h1 h2 l r hev1 hev2
    simp only [runCmd_Assert_eq, hev1, hev2]
    by_cases hs : subEqualHolds ext l r <;> simp [hs]

/-- C2 (witness): a nat re-annotates at the int type and compares equal
(the spec's `Assert(SubEqual, intValue(5), natValue(5))` coercion case),
and the `Assert` command succeeds on the textual substring case. -/
theorem assert_subequal_protocol_witness :
    subEqualHolds extW (.NatV 5) (.IntV 5) = decide ((IDLValue.IntV 5) = .IntV 5)
    ∧ runCmd extW 1 (.Assert .SubEqual ⟨8⟩ ⟨8⟩) h0 =
        (h0, if subEqualHolds extW (.Text "abc") (.Text "abc") then none
          else some .assertFail) :=
  ⟨(assert_subequal_protocol extW).2.1 (.NatV 5) (.IntV 5) (.IntV 5) rfl rfl,
    (assert_subequal_protocol extW).2.2.2.2 0 ⟨8⟩ ⟨8⟩ h0 h0 h0
      (.Text "abc") (.Text "abc") rfl rfl⟩

/-! ## C3: identity cache reuse and monotonicity -/

/-- C3: `Identity(n, Empty)` with `n` already cached reuses the cached
handle — the command succeeds, the cache entry for `n` is (re)written
with that same handle, and the principal bound under `n` is the one
derived from the cached handle; and for any configuration, resolving an
identity never removes or replaces the cache entry of any *other* name:
the cache only grows or overwrites the entry being resolved. -/
theorem identity_cache_semantics (ext : Externals) :
    (∀ fuel n h idh p, lookupKV n h.identity_map = some idh →
        ext.sender idh = .ok p →
        (runCmd ext (fuel + 1) (.Identity n .Empty) h).2 = none
        ∧ (runCmd ext (fuel + 1) (.Identity n .Empty) h).1.identity_map
            = insertKV n idh h.identity_map
        ∧ lookupKV n (runCmd ext (fuel + 1) (.Identity n .Empty) h).1.identity_map
            = some idh
        ∧ lookupKV n (runCmd ext (fuel + 1) (.Identity n .Empty) h).1.env
            = some (.Principal p))
    ∧ (∀ fuel n cfg h m, m ≠ n →
        lookupKV m (runCmd ext (fuel + 1) (.Identity n cfg) h).1.identity_map
          = lookupKV m h.identity_map) := by
  constructor
  · intro fuel n h idh p hcache hsend
    simp only [runCmd_Identity_eq, resolveIdentityConfig, hcache, hsend]
    simp [lookupKV_insertKV_self]
  · intro fuel n cfg h m hne
    simp only [runCmd_Identity_eq]
    cases hres : resolveIdentityConfig ext h n cfg with
    | error er => rfl
    | ok idh =>
      simp only []
      cases hsend : ext.sender idh with
      | error er => simp [lookupKV_insertKV_ne idh h.identity_map hne]
      | ok p => simp [lookupKV_insertKV_ne idh h.identity_map hne]

/-- C3 (witness): with `"a"` cached as handle `42` (principal `43`),
re-selecting `"a"` succeeds, binds principal `43`, and keeps the entry;
resolving `"a"` never touches the cache entry of `"b"`. -/
theorem identity_cache_semantics_witness :
    (runCmd extW 1 (.Identity "a" .Empty)
        { h0 with identity_map := [("a", 42)] }).2 = none
    ∧ lookupKV "a" (runCmd extW 1 (.Identity "a" .Empty)
        { h0 with identity_map := [("a", 42)] }).1.env = some (.Principal 43)
    ∧ lookupKV "b" (runCmd extW 1 (.Identity "a" .Empty)
        { h0 with identity_map := [("a", 42), ("b", 7)] }).1.identity_map
      = lookupKV "b" [("a", 42), ("b", 7)] :=
  ⟨((identity_cache_semantics extW).1 0 "a" { h0 with identity_map := [("a", 42)] }
      42 43 rfl rfl).1,
    ((identity_cache_semantics extW).1 0 "a" { h0 with identity_map := [("a", 42)] }
      42 43 rfl rfl).2.2.2,
    (identity_cache_semantics extW).2 0 "a" .Empty
      { h0 with identity_map := [("a", 42), ("b", 7)] } "b" (by decide)⟩

/-! ## C9: non-atomicity of Identity on sender failure -/

/-- C9: when the configured signer resolves successfully to a handle but
deriving its public principal fails, the `Identity` command returns that
error *after* the cache entry for the name has been inserted/overwritten
with the new handle, while the active signer, the current-identity name,
the variable bindings and the output are all left unchanged. -/
theorem identity_sender_failure (ext : Externals) (fuel : Nat) (n : String)
    (cfg : IdentityConfig) (h : MyHelper) (idh : IdentityHandle) (er : Err)
    (hres : resolveIdentityConfig ext h n cfg = .ok idh)
    (hsend : ext.sender idh = .error er) :
    runCmd ext (fuel + 1) (.Identity n cfg) h =
      ({ h with identity_map := insertKV n idh h.identity_map }, some er)
    ∧ lookupKV n (runCmd ext (fuel + 1) (.Identity n cfg) h).1.identity_map = some idh
    ∧ (runCmd ext (fuel + 1) (.Identity n cfg) h).1.agent_identity = h.agent_identity
    ∧ (runCmd ext (fuel + 1) (.Identity n cfg) h).1.current_identity = h.current_identity
    ∧ (runCmd ext (fuel + 1) (.Identity n cfg) h).1.env = h.env
    ∧ (runCmd ext (fuel + 1) (.Identity n cfg) h).1.output = h.output := by
  have hmain : runCmd ext (fuel + 1) (.Identity n cfg) h =
      ({ h with identity_map := insertKV n idh h.identity_map }, some er) := by
    simp only [runCmd_Identity_eq, hres, hsend]
  refine ⟨hmain, ?_, ?_, ?_, ?_, ?_⟩ <;>
    rw [hmain]
  exact lookupKV_insertKV_self n idh h.identity_map

/-- C9 (witness): cached handle `666` resolves via `Empty`, its
principal derivation fails, the cache write has happened, everything
else is untouched. -/
theorem identity_sender_failure_witness :
    runCmd extW 1 (.Identity "x" .Empty) { h0 with identity_map := [("x", 666)] } =
      ({ h0 with identity_map := insertKV "x" 666 [("x", 666)] },
        some (.msg "sender fail")) :=
  (identity_sender_failure extW 0 "x" .Empty { h0 with identity_map := [("x", 666)] }
    666 (.msg "sender fail") rfl rfl).1

/-! ## C8: Show binds `_` and displays according to verbosity -/

theorem bind_value_verbose_eq (ext : Externals) (h : MyHelper) (id : String)
    (v : IDLValue) (is_call display : Bool) :
    (bind_value ext h id v is_call display).verbose = h.verbose := by
  cases hmv : ext.may_extract_profiling v with
  | mk w c =>
    cases is_call <;> cases display <;> cases hv : h.verbose <;> cases c <;>
      cases v <;> simp_all [bind_value]

theorem bind_value_lookup_env (ext : Externals) (h : MyHelper) (id : String)
    (v : IDLValue) (is_call display : Bool) :
    lookupKV id (bind_value ext h id v is_call display).env
      = some (if is_call then (ext.may_extract_profiling v).1 else v) := by
  cases hmv : ext.may_extract_profiling v with
  | mk w c =>
    cases is_call with
    | false =>
      cases display <;> cases hv : h.verbose <;> cases v <;>
        simp [bind_value, hv, lookupKV_insertKV_self]
    | true =>
      cases c <;> cases display <;> cases hv : h.verbose <;> cases v <;>
        simp_all [bind_value, lookupKV_insertKV_self]

theorem bind_value_output_verbose (ext : Externals) (h : MyHelper) (id : String)
    (v : IDLValue) (is_call : Bool) (hv : h.verbose = true) :
    (bind_value ext h id v is_call true).output = h.output ++ [ext.show_value v] := by
  cases hmv : ext.may_extract_profiling v with
  | mk w c => cases is_call <;> cases c <;> simp_all [bind_value]

theorem bind_value_output_text (ext : Externals) (h : MyHelper) (id : String)
    (t : String) (is_call : Bool) (hv : h.verbose = false) :
    (bind_value ext h id (.Text t) is_call true).output = h.output ++ [t] := by
  cases hmv : ext.may_extract_profiling (.Text t) with
  | mk w c => cases is_call <;> cases c <;> simp_all [bind_value]

theorem bind_value_output_nontext (ext : Externals) (h : MyHelper) (id : String)
    (v : IDLValue) (is_call : Bool) (hv : h.verbose = false)
    (ht : isTextV v = false) :
    (bind_value ext h id v is_call true).output = h.output := by
  cases hmv : ext.may_extract_profiling v with
  | mk w c => cases is_call <;> cases c <;> cases v <;> simp_all [bind_value, isTextV]

/-- C8: `Show(expr)` whose expression evaluates successfully binds the
evaluated result to `"_"` through the binding policy: for a call
expression the bound value is the result after the profiling-cost
extraction of `may_extract_profiling` (its first component), for any
other expression it is the evaluated value itself, exactly.  The display
rules hold for every expression: with verbosity off a textual value
prints its raw text (exactly one line, unquoted) and a non-textual value
prints nothing; with verbosity on the full value representation is
printed (followed by the timing footer). -/
theorem show_binding_and_display (ext : Externals) (fuel : Nat) (val : Exp)
    (h h1 : MyHelper) (v : IDLValue)
    (hev : ext.eval val h = (h1, .ok v)) :
    (runCmd ext (fuel + 1) (.Show val) h).2 = none
    ∧ lookupKV "_" (runCmd ext (fuel + 1) (.Show val) h).1.env
        = some (if ext.is_call val then (ext.may_extract_profiling v).1 else v)
    ∧ (ext.is_call val = false →
        lookupKV "_" (runCmd ext (fuel + 1) (.Show val) h).1.env = some v)
    ∧ (h1.verbose = false → ∀ t, v = .Text t →
        (runCmd ext (fuel + 1) (.Show val) h).1.output = h1.output ++ [t])
    ∧ (h1.verbose = false → isTextV v = false →
        (runCmd ext (fuel + 1) (.Show val) h).1.output = h1.output)
    ∧ (h1.verbose = true →
        (runCmd ext (fuel + 1) (.Show val) h).1.output
          = h1.output ++ [ext.show_value v, ext.duration_line]) := by
  have hverb := bind_value_verbose_eq ext h1 "_" v (ext.is_call val) true
  simp only [runCmd_Show_eq, hev]
  cases hv : h1.verbose with
  | false =>
    rw [hv] at hverb
    simp only [hverb, Bool.false_eq_true, if_false]
    refine ⟨trivial, ?_, ?_, ?_, ?_, ?_⟩
    · exact bind_value_lookup_env ext h1 "_" v (ext.is_call val) true
    · intro hnc
      rw [bind_value_lookup_env, hnc]
      simp
    · intro _ t ht
      subst ht
      exact bind_value_output_text ext h1 "_" t (ext.is_call val) hv
    · intro _ htv
      exact bind_value_output_nontext ext h1 "_" v (ext.is_call val) hv htv
    · intro hcontra
      exact absurd hcontra (by simp)
  | true =>
    rw [hv] at hverb
    simp only [hverb, if_true]
    refine ⟨trivial, ?_, ?_, ?_, ?_, ?_⟩
    · exact bind_value_lookup_env ext h1 "_" v (ext.is_call val) true
    · intro hnc
      rw [bind_value_lookup_env, hnc]
      simp
    · intro hcontra
      exact absurd hcontra (by simp)
    · intro hcontra
      exact absurd hcontra (by simp)
    · intro _
      rw [bind_value_output_verbose ext h1 "_" v (ext.is_call val) hv]
      simp

/-- C8 (witness): `Show(text("abc"))` in non-verbose mode binds `_` to
the text value and prints exactly `abc`; with the expression classified
as a call whose result carries a profiling cost, `_` is bound to the
cost-stripped value. -/
theorem show_binding_and_display_witness :
    lookupKV "_" (runCmd extW 1 (.Show ⟨8⟩) h0).1.env = some (.Text "abc")
    ∧ (runCmd extW 1 (.Show ⟨8⟩) h0).1.output = h0.output ++ ["abc"]
    ∧ lookupKV "_" (runCmd
        { extW with
            is_call := fun _ => true
            may_extract_profiling := fun _ => (.Null, some 3) } 1
        (.Show ⟨8⟩) h0).1.env = some .Null :=
  ⟨(show_binding_and_display extW 0 ⟨8⟩ h0 h0 (.Text "abc") rfl).2.2.1 rfl,
    (show_binding_and_display extW 0 ⟨8⟩ h0 h0 (.Text "abc") rfl).2.2.2.1
      rfl "abc" rfl,
    (show_binding_and_display
      { extW with
          is_call := fun _ => true
          may_extract_profiling := fun _ => (.Null, some 3) } 0 ⟨8⟩ h0 h0
      (.Text "abc") rfl).2.1⟩

/-! ## C7: shebang handling in Load -/

/-- C7 (counterexample): the claim that for content beginning with `#!`
the **entire first line** is stripped before substitution and parsing is
false.  Loading `sb.sh`, read successfully with content `"#!she"`
(a `#!` line with no trailing newline), hands the parser the unchanged
content `"#!she"` — observable here because the parser is instantiated
to fail with its input as the message — instead of the empty content the
claim requires; `script.find('\n').unwrap_or(0)` yields `0`, so
`drain(..0)` strips nothing. -/
theorem shebang_strip_cex :
    ("#!she").data.take 2 = ['#', '!']
    ∧ stripShebang "#!she" = "#!she"
    ∧ runCmd { extW with pretty_parse := fun _ s => .error (.msg s) } 3
        (.Load ⟨10⟩) h0 = (h0, some (.msg "#!she")) := by
  refine ⟨by decide, rfl, rfl⟩

/-- C7 (amended): when the content begins with `#!`, the characters
strictly before the first newline are removed — the newline itself (and
with it an empty first line) remains; when the content begins with `#!`
but contains no newline, nothing is removed; content not beginning with
`#!` is unchanged.  The (possibly) stripped content is what undergoes
environment-variable substitution (and then parsing) in the loader. -/
theorem shebang_strip_amended :
    (∀ s : String, s.data.take 2 = ['#', '!'] →
      ∀ i, s.data.findIdx? (fun c => c = '\n') = some i →
        stripShebang s = ⟨s.data.drop i⟩)
    ∧ (∀ s : String, s.data.take 2 = ['#', '!'] →
        s.data.findIdx? (fun c => c = '\n') = none → stripShebang s = s)
    ∧ (∀ s : String, ¬ s.data.take 2 = ['#', '!'] → stripShebang s = s)
    ∧ (∀ (ext : Externals) (fuel : Nat) (file : String) (fs : Bool)
        (h : MyHelper) (script : String) (er : Err),
        ext.read_to_string (ext.resolve_path h.base_path file) = .ok script →
        ext.shellexpand (stripShebang script) = .error er →
        loadFile ext (fuel + 1) file fs h = (h, some er)) := by
  refine ⟨?_, ?_, ?_, ?_⟩
  · intro s htake i hfind
    unfold stripShebang
    rw [if_pos htake, hfind]
    rfl
  · intro s htake hfind
    unfold stripShebang
    rw [if_pos htake, hfind]
    rfl
  · intro s htake
    unfold stripShebang
    rw [if_neg htake]
  · intro ext fuel file fs h script er hread hex
    simp only [loadFile_eq, hread, hex]

/-- C7 (witness): the amended stripping applied to concrete contents
with and without a newline. -/
theorem shebang_strip_amended_witness :
    stripShebang "#!x\nY" = "\nY"
    ∧ stripShebang "#!x" = "#!x"
    ∧ stripShebang "plain" = "plain" :=
  ⟨shebang_strip_amended.1 "#!x\nY" rfl 3 rfl,
    shebang_strip_amended.2.1 "#!x" rfl rfl,
    shebang_strip_amended.2.2.1 "plain" (by decide)⟩
